import Mathlib

/-!
# Verification of the pong simulation core (src/main.rs)

Shallow embedding of the simulation core of a two-paddle pong game:
entity construction from tiled level geometry, the fixed-timestep
physics advance, input-to-velocity smoothing and the per-frame draw
query.  `f32` values are modelled as rationals (`ℚ`); arithmetic on
them is exact here.  Fatal `panic!`/`unwrap` paths are modelled with
`Option` (`none` = abort).  The physics engine (`nphysics2d`) is an
external collaborator: its `World::step` is taken as an abstract
function parameter `stepFn`, and the calls the core issues to the
world (step dt, set-linear-velocity) are recorded in an explicit
trace so that properties of the core's own behaviour can be stated
independently of the engine.
-/

namespace Pong

/-- Shape of a tiled map object (`tiled::ObjectShape`): axis-aligned
rectangle, ellipse, or some other shape variant. -/
inductive ObjectShape where
  | Rect (width height : ℚ)
  | Ellipse (width height : ℚ)
  | Other
  deriving DecidableEq, Repr

/-- A tiled map object (`tiled::Object`): role string, name, shape and
top-left position. -/
structure TiledObject where
  obj_type : String
  name : String
  shape : ObjectShape
  x : ℚ
  y : ℚ
  deriving DecidableEq, Repr

/-- An object group of a tiled map. -/
structure ObjectGroup where
  objects : List TiledObject
  deriving DecidableEq, Repr

/-- A tiled map (`tiled::Map`), restricted to the part the simulation
core reads: its object groups. -/
structure TiledMap where
  object_groups : List ObjectGroup
  deriving DecidableEq, Repr

/-- A 2D vector over the rational model of `f32`. -/
structure Vec2 where
  x : ℚ
  y : ℚ
  deriving DecidableEq, Repr

/-- Collision shape of a rigid body: `Cuboid` with half-extents or
`Ball` with radius. -/
inductive Shape where
  | cuboid (half_extents : Vec2)
  | ball (radius : ℚ)
  deriving DecidableEq, Repr

/-- A rigid body as the core configures it: shape, dynamic/static flag,
density (`none` for static bodies), restitution, friction, whether
`set_inv_mass(0.0)` was applied, current position (centre), current
linear velocity, and whether user data was attached (the wall marker:
`user_data().is_some()`). -/
structure RigidBody where
  shape : Shape
  dynamic : Bool
  density : Option ℚ
  restitution : ℚ
  friction : ℚ
  inv_mass_zero : Bool
  position : Vec2
  lin_vel : Vec2
  user_data : Bool
  deriving DecidableEq, Repr

/-- The physics world's body store.  `world.add_rigid_body` appends and
hands back the index as the body handle. -/
abbrev World := List RigidBody

/-- `World::add_rigid_body`: insert a body, returning the new world and
the handle of the inserted body. -/
def add_rigid_body (w : World) (rb : RigidBody) : World × ℕ :=
  (w ++ [rb], w.length)

/-- `make_cuboid_rb`: build a cuboid rigid body from a tiled object.
`none` models the `panic!("cuboid must be rect")` on a non-rectangle
shape.  A dynamic body is `RigidBody::new_dynamic(cuboid, 1.0, 1.0, 0.0)`,
a static one `RigidBody::new_static(cuboid, 1.0, 0.0)`; both start at the
origin and the translation `(object.x + half_extents.x, object.y +
half_extents.y)` is appended. -/
def make_cuboid_rb (object : TiledObject) (dynamic : Bool) : Option RigidBody :=
  match object.shape with
  | ObjectShape.Rect width height =>
    let half_extents : Vec2 := ⟨width / 2, height / 2⟩
    let rb : RigidBody :=
      if dynamic then
        { shape := Shape.cuboid half_extents, dynamic := true, density := some 1,
          restitution := 1, friction := 0, inv_mass_zero := false,
          position := ⟨0, 0⟩, lin_vel := ⟨0, 0⟩, user_data := false }
      else
        { shape := Shape.cuboid half_extents, dynamic := false, density := none,
          restitution := 1, friction := 0, inv_mass_zero := false,
          position := ⟨0, 0⟩, lin_vel := ⟨0, 0⟩, user_data := false }
    some { rb with position := ⟨rb.position.x + (object.x + half_extents.x),
                                rb.position.y + (object.y + half_extents.y)⟩ }
  | _ => none

/-- Controller-side paddle entity: smoothed vertical velocity and an
optional handle to the paddle's physics body. -/
structure Paddle where
  dy : ℚ
  rb : Option ℕ
  deriving DecidableEq, Repr

/-- `Paddle::default()`: zero velocity, no body handle. -/
def Paddle.default : Paddle := ⟨0, none⟩

/-- Intermediate state of `MainState::new`'s construction loop. -/
structure BuildState where
  world : World
  player : Paddle
  ai : Paddle
  ball : Option ℕ
  deriving DecidableEq, Repr

/-- One iteration of `MainState::new`'s object loop.  `hypot` is
`f32::hypot` (irrational in general), threaded in as a parameter of the
embedding.  `none` models the fatal paths: non-rectangle wall/paddle,
unknown paddle name, non-ellipse ball. -/
def processObject (hypot : ℚ → ℚ → ℚ) (st : BuildState) (object : TiledObject) :
    Option BuildState :=
  if object.obj_type = "wall" then
    match make_cuboid_rb object false with
    | some rb =>
      let rb := { rb with user_data := true }
      some { st with world := (add_rigid_body st.world rb).1 }
    | none => none
  else if object.obj_type = "paddle" then
    match make_cuboid_rb object true with
    | some rb =>
      let rb := { rb with inv_mass_zero := true }
      let wh := add_rigid_body st.world rb
      if object.name = "player_paddle" then
        some { st with world := wh.1, player := { st.player with rb := some wh.2 } }
      else if object.name = "ai_paddle" then
        some { st with world := wh.1, ai := { st.ai with rb := some wh.2 } }
      else none
    | none => none
  else if object.obj_type = "ball" then
    match object.shape with
    | ObjectShape.Ellipse width height =>
      let radius := hypot width height / 2
      let rb : RigidBody :=
        { shape := Shape.ball radius, dynamic := true, density := some 1,
          restitution := 1, friction := 0, inv_mass_zero := false,
          position := ⟨object.x + radius, object.y + radius⟩,
          lin_vel := ⟨1000, 0⟩, user_data := false }
      let wh := add_rigid_body st.world rb
      some { st with world := wh.1, ball := some wh.2 }
    | _ => none
  else some st

/-- The simulation state (`MainState`). -/
structure MainState where
  world : World
  axis : ℚ
  player : Paddle
  ball : ℕ
  ai : Paddle
  deriving DecidableEq, Repr

/-- `MainState::new`: run the nested object-group loop, then take the
ball handle (`ball.unwrap()`: `none` models the panic when no ball
object was seen).  The input axis starts at `0.0`. -/
def MainState.new (hypot : ℚ → ℚ → ℚ) (map : TiledMap) : Option MainState := do
  let init : BuildState := ⟨[], Paddle.default, Paddle.default, none⟩
  let st ← map.object_groups.foldlM
    (fun st group => group.objects.foldlM (processObject hypot) st) init
  match st.ball with
  | some ball => some ⟨st.world, 0, st.player, ball, st.ai⟩
  | none => none

/-- `PADDLE_SPEED` constant, units/second. -/
def PADDLE_SPEED : ℚ := 1000

/-- `DESIRED_FPS` constant of `MainState::update`. -/
def DESIRED_FPS : ℕ := 60

/-- `LERP_TWEAK` constant of `MainState::update`. -/
def LERP_TWEAK : ℚ := 10

/-- `Lerp::lerp` of the `lerp` crate: `self + ((other - self) * t)`. -/
def lerp (a other t : ℚ) : ℚ := a + (other - a) * t

/-- A call issued by the core to the physics world: `step(dt)` or
`set_lin_vel(handle, vel)` on a body handle. -/
inductive WorldCall where
  | step (dt : ℚ)
  | set_lin_vel (handle : ℕ) (vel : Vec2)
  deriving DecidableEq, Repr

/-- `rb.set_lin_vel(vel)` through a handle: update the body the handle
points at, if any. -/
def setBodyLinVel (w : World) (handle : ℕ) (vel : Vec2) : World :=
  match w[handle]? with
  | some rb => w.set handle { rb with lin_vel := vel }
  | none => w

/-- The body of the `while timer::check_update_time` loop of
`MainState::update`, one fixed step: `world.step(0.016)` (the engine's
effect is the abstract `stepFn`; the subsequent read of the ball's
linear velocity feeds only a `println!` and mutates nothing), then
`player.dy = player.dy.lerp(axis * PADDLE_SPEED, LERP_TWEAK * seconds)`
with `seconds = 1.0 / DESIRED_FPS`, then — only when a player body
handle exists — `rb.set_lin_vel(Vector2::new(0.0, player.dy))`.
Returns the new state and the trace of world calls. -/
def fixedStep (stepFn : World → World) (s : MainState) : MainState × List WorldCall :=
  let world := stepFn s.world
  let seconds : ℚ := 1 / (DESIRED_FPS : ℚ)
  let dy := lerp s.player.dy (s.axis * PADDLE_SPEED) (LERP_TWEAK * seconds)
  let player : Paddle := { s.player with dy := dy }
  match player.rb with
  | some handle =>
    (⟨setBodyLinVel world handle ⟨0, dy⟩, s.axis, player, s.ball, s.ai⟩,
     [WorldCall.step 0.016, WorldCall.set_lin_vel handle ⟨0, dy⟩])
  | none =>
    (⟨world, s.axis, player, s.ball, s.ai⟩, [WorldCall.step 0.016])

/-- `MainState::update` with `n` fixed steps granted by the timer gate
(`timer::check_update_time` is the external accumulator; `n` is how
often it returns true this frame).  Accumulates the world-call trace. -/
def update (stepFn : World → World) : ℕ → MainState → MainState × List WorldCall
  | 0, s => (s, [])
  | n + 1, s =>
    let sc := fixedStep stepFn s
    let rest := update stepFn n sc.1
    (rest.1, sc.2 ++ rest.2)

/-- The logical keys the core distinguishes (`Keycode` match arms of
`key_down_event`): Up, Down, the two quit keys, and every other key. -/
inductive Keycode where
  | Up
  | Down
  | Escape
  | Q
  | Other
  deriving DecidableEq, Repr

/-- `key_down_event`: Up sets the axis to `-1`, Down to `1`, Escape/Q
request quit (`ctx.quit()`, the returned flag), anything else does
nothing. -/
def key_down_event (s : MainState) (keycode : Keycode) : MainState × Bool :=
  match keycode with
  | Keycode.Up => ({ s with axis := -1 }, false)
  | Keycode.Down => ({ s with axis := 1 }, false)
  | Keycode.Escape => (s, true)
  | Keycode.Q => (s, true)
  | Keycode.Other => (s, false)

/-- `key_up_event`: any key release resets the axis to `0`. -/
def key_up_event (s : MainState) (_keycode : Keycode) : MainState :=
  { s with axis := 0 }

/-- An RGB colour triple as `graphics::set_color` receives it. -/
abbrev Color := ℕ × ℕ × ℕ

/-- A draw primitive emitted by `MainState::draw`: a filled rectangle
(top-left corner, width, height) or a filled circle (centre, radius,
tessellation tolerance), each with the colour set for the body. -/
inductive DrawPrimitive where
  | rectangle (color : Color) (x y w h : ℚ)
  | circle (color : Color) (center : Vec2) (radius : ℚ) (tolerance : ℚ)
  deriving DecidableEq, Repr

/-- Colour chosen for a body in `MainState::draw`: grey `(100,100,100)`
when the wall marker (user data) is present, white `(255,255,255)`
otherwise. -/
def drawColor (body : RigidBody) : Color :=
  if body.user_data then (100, 100, 100) else (255, 255, 255)

/-- Shape dispatch of `MainState::draw` for one body: a cuboid yields a
filled rectangle at position minus half-extents with twice the
half-extents as size; a ball yields a filled circle at the position
with the shape's radius and tolerance `0.1`.  (The source's else-if
chain would silently skip other shapes; this embedding's `Shape` has
exactly the two variants that occur.) -/
def drawBody (body : RigidBody) : Option DrawPrimitive :=
  match body.shape with
  | Shape.cuboid h =>
    some (DrawPrimitive.rectangle (drawColor body)
      (body.position.x - h.x) (body.position.y - h.y) (h.x * 2) (h.y * 2))
  | Shape.ball radius =>
    some (DrawPrimitive.circle (drawColor body) body.position radius 0.1)

/-- `MainState::draw`: one primitive per body of the world, in body
order. -/
def draw (s : MainState) : List DrawPrimitive :=
  s.world.filterMap drawBody

/-! ### Predicates and fixtures used by the statements -/

/-- The shape is a rectangle. -/
def isRect : ObjectShape → Bool
  | ObjectShape.Rect _ _ => true
  | _ => false

/-- The shape is an ellipse. -/
def isEllipse : ObjectShape → Bool
  | ObjectShape.Ellipse _ _ => true
  | _ => false

/-- A level object the construction loop accepts without aborting:
walls and paddles are rectangles, paddles carry one of the two known
names, balls are ellipses; objects of any other role are skipped. -/
def objOk (o : TiledObject) : Bool :=
  if o.obj_type = "wall" then isRect o.shape
  else if o.obj_type = "paddle" then
    isRect o.shape && (o.name == "player_paddle" || o.name == "ai_paddle")
  else if o.obj_type = "ball" then isEllipse o.shape
  else true

/-- All objects of a map, in the order the nested construction loop
visits them. -/
def TiledMap.allObjects (map : TiledMap) : List TiledObject :=
  (map.object_groups.map ObjectGroup.objects).flatten

/-- The player-paddle velocity recurrence of the update loop under a
constant axis of `+1`, iterated: each fixed step replaces `v` by
`lerp v PADDLE_SPEED (LERP_TWEAK / DESIRED_FPS)`. -/
def dyIter : ℕ → ℚ → ℚ
  | 0, v => v
  | n + 1, v => dyIter n (lerp v PADDLE_SPEED (LERP_TWEAK / (DESIRED_FPS : ℚ)))

/-- A concrete stand-in for `f32::hypot` in concrete runs (its value is
irrelevant to the properties evaluated on the fixtures). -/
def hyp0 : ℚ → ℚ → ℚ := fun a b => a + b

/-- Fixture: a well-formed ball object. -/
def ballObj : TiledObject := ⟨"ball", "ball", ObjectShape.Ellipse 30 30, 100, 200⟩

/-- Fixture: a second well-formed ball object. -/
def ballObj2 : TiledObject := ⟨"ball", "ball2", ObjectShape.Ellipse 10 10, 5, 5⟩

/-- Fixture: a ball object whose shape is a rectangle (role/shape
mismatch). -/
def badBall : TiledObject := ⟨"ball", "ball", ObjectShape.Rect 30 30, 100, 200⟩

/-- Fixture: a wall object. -/
def wallObj : TiledObject := ⟨"wall", "", ObjectShape.Rect 640 16, 0, 0⟩

/-- Fixture: the ai paddle object. -/
def paddleObjAi : TiledObject := ⟨"paddle", "ai_paddle", ObjectShape.Rect 16 64, 600, 200⟩

/-- Fixture: the empty build state the construction loop starts from. -/
def init0 : BuildState := ⟨[], Paddle.default, Paddle.default, none⟩

/-- Fixture: a map with one wall and two ball objects. -/
def twoBallMap : TiledMap := ⟨[⟨[wallObj, ballObj, ballObj2]⟩]⟩

/-- Fixture: a map with a wall, an ai paddle and a ball, but no
player paddle. -/
def noPlayerMap : TiledMap := ⟨[⟨[wallObj, paddleObjAi]⟩, ⟨[ballObj]⟩]⟩

/-- Fixture: a map with a wall and one ball. -/
def oneBallMap : TiledMap := ⟨[⟨[wallObj, ballObj]⟩]⟩

/-- Fixture: a dynamic cuboid body with half-extents `(10, 20)` centred
at `(50, 50)`. -/
def body1020 : RigidBody :=
  { shape := Shape.cuboid ⟨10, 20⟩, dynamic := true, density := some 1,
    restitution := 1, friction := 0, inv_mass_zero := false,
    position := ⟨50, 50⟩, lin_vel := ⟨0, 0⟩, user_data := false }

/-- Fixture: a paddle-like cuboid body at the origin. -/
def bodyA : RigidBody :=
  { shape := Shape.cuboid ⟨8, 32⟩, dynamic := true, density := some 1,
    restitution := 1, friction := 0, inv_mass_zero := true,
    position := ⟨20, 100⟩, lin_vel := ⟨0, 0⟩, user_data := false }

/-- Fixture: a second paddle-like cuboid body with a non-zero
velocity. -/
def bodyB : RigidBody :=
  { shape := Shape.cuboid ⟨8, 32⟩, dynamic := true, density := some 1,
    restitution := 1, friction := 0, inv_mass_zero := true,
    position := ⟨620, 100⟩, lin_vel := ⟨0, 7⟩, user_data := false }

/-- Fixture: a state with no player body handle. -/
def sNoPlayer : MainState := ⟨[], 0, ⟨0, none⟩, 0, ⟨0, none⟩⟩

/-- Fixture: a state whose player paddle holds handle `0`. -/
def sPlayer0 : MainState := ⟨[bodyA], 3, ⟨5, some 0⟩, 0, ⟨0, none⟩⟩

/-- Fixture: a state with axis `+1`, player velocity `0` and player
handle `0`. -/
def sAxis1 : MainState := ⟨[bodyA], 1, ⟨0, some 0⟩, 0, ⟨0, none⟩⟩

/-- Fixture: a state with player handle `0` and ai handle `1`, axis
`+1`. -/
def sTwoPaddles : MainState := ⟨[bodyA, bodyB], 1, ⟨0, some 0⟩, 0, ⟨0, some 1⟩⟩

/-! ### Basic lemmas about one fixed step -/

theorem fixedStep_player_dy (stepFn : World → World) (s : MainState) :
    (fixedStep stepFn s).1.player.dy
      = lerp s.player.dy (s.axis * PADDLE_SPEED) (LERP_TWEAK * (1 / (DESIRED_FPS : ℚ))) := by
  cases hrb : s.player.rb <;> simp [fixedStep, hrb]

theorem fixedStep_axis (stepFn : World → World) (s : MainState) :
    (fixedStep stepFn s).1.axis = s.axis := by
  cases hrb : s.player.rb <;> simp [fixedStep, hrb]

theorem fixedStep_player_rb (stepFn : World → World) (s : MainState) :
    (fixedStep stepFn s).1.player.rb = s.player.rb := by
  cases hrb : s.player.rb <;> simp [fixedStep, hrb]

theorem fixedStep_ai (stepFn : World → World) (s : MainState) :
    (fixedStep stepFn s).1.ai = s.ai := by
  cases hrb : s.player.rb <;> simp [fixedStep, hrb]

theorem fixedStep_trace_step {stepFn : World → World} {s : MainState} {dt : ℚ}
    (h : WorldCall.step dt ∈ (fixedStep stepFn s).2) : dt = 0.016 := by
  cases hrb : s.player.rb <;> simp [fixedStep, hrb] at h <;> simp [h]

/-! ### C1: the dt passed to the physics step -/

/-- C1 (counterexample): the update loop passes `0.016` to
`World::step`, and `0.016 ≠ 1/60`; so it is not the case that the dt of
every executed step equals `1/60`. -/
theorem C1_dt_counterexample :
    (fixedStep id sNoPlayer).2 = [WorldCall.step 0.016] ∧ (0.016 : ℚ) ≠ 1 / 60 :=
  ⟨rfl, by norm_num⟩

/-- C1 (amended): in every frame update, each executed physics step
advances the world by the fixed delta `0.016` seconds (approximately,
but not exactly, `1/60`): every `step dt` call in the trace of `update`
has `dt = 0.016`. -/
theorem C1_step_dt (stepFn : World → World) (n : ℕ) (s : MainState) (dt : ℚ)
    (h : WorldCall.step dt ∈ (update stepFn n s).2) : dt = 0.016 := by
  induction n generalizing s with
  | zero => simp [update] at h
  | succ n ih =>
    simp only [update, List.mem_append] at h
    rcases h with h | h
    · exact fixedStep_trace_step h
    · exact ih _ h

/-- C1 witness: the hypotheses of `C1_step_dt` are satisfiable at a
concrete run. -/
theorem C1_step_dt_witness :
    WorldCall.step 0.016 ∈ (update id 1 sNoPlayer).2 ∧ (0.016 : ℚ) = 0.016 :=
  ⟨by simp [update, fixedStep, sNoPlayer],
   C1_step_dt id 1 sNoPlayer 0.016 (by simp [update, fixedStep, sNoPlayer])⟩

/-! ### C4: rectangle bodies: half-extents and centre -/

/-- C4: for every rectangle geometry object with width `w`, height `h`
and top-left position `(x, y)`, `make_cuboid_rb` produces a body whose
box half-extents are `(w/2, h/2)` and whose centre position is
`(x + w/2, y + h/2)`. -/
theorem C4_cuboid_halfextents_center (t nm : String) (w h x y : ℚ) (dyn : Bool) :
    ∃ rb, make_cuboid_rb ⟨t, nm, ObjectShape.Rect w h, x, y⟩ dyn = some rb ∧
      rb.shape = Shape.cuboid ⟨w / 2, h / 2⟩ ∧
      rb.position = ⟨x + w / 2, y + h / 2⟩ := by
  cases dyn <;> refine ⟨_, rfl, rfl, ?_⟩ <;> simp [make_cuboid_rb]

/-! ### C7: box bodies are drawn as centre minus half-extents -/

/-- C7: a box body is emitted as a filled rectangle whose top-left
corner is the centre position minus the half-extents and whose size is
twice the half-extents; in particular a box of half-extents `(10, 20)`
centred at `(50, 50)` yields the rectangle at `(40, 30)` of size
`(20, 40)`. -/
theorem C7_draw_box :
    (∀ (dyn : Bool) (density : Option ℚ) (re fr : ℚ) (imz : Bool) (lv : Vec2)
       (ud : Bool) (px py hx hy : ℚ),
      drawBody ⟨Shape.cuboid ⟨hx, hy⟩, dyn, density, re, fr, imz, ⟨px, py⟩, lv, ud⟩
        = some (DrawPrimitive.rectangle (if ud then (100, 100, 100) else (255, 255, 255))
            (px - hx) (py - hy) (hx * 2) (hy * 2))) ∧
    draw ⟨[body1020], 0, Paddle.default, 0, Paddle.default⟩
      = [DrawPrimitive.rectangle (255, 255, 255) 40 30 20 40] := by
  refine ⟨fun dyn density re fr imz lv ud px py hx hy => rfl,
    by norm_num [draw, body1020, drawBody, drawColor, List.filterMap_cons]⟩

/-! ### C8: input axis transitions -/

/-- C8: a key-down for Up sets the axis to `-1`, a key-down for Down
sets it to `+1`, any key-up resets it to `0`, and a key-down for any
other non-quit key leaves the axis unchanged. -/
theorem C8_axis_transitions (s : MainState) :
    ((key_down_event s Keycode.Up).1.axis = -1) ∧
    ((key_down_event s Keycode.Down).1.axis = 1) ∧
    (∀ k, (key_up_event s k).axis = 0) ∧
    ((key_down_event s Keycode.Other).1.axis = s.axis) :=
  ⟨rfl, rfl, fun _ => rfl, rfl⟩

/-! ### C5: the per-step velocity smoothing and where it is written -/

/-- C5: on every fixed step, with `PADDLE_SPEED = 1000` and
`LERP_TWEAK = 10`, the player's smoothed velocity becomes
`lerp dy (axis * PADDLE_SPEED) (LERP_TWEAK * (1/60))` and is written
through the player handle as the body's vertical velocity component
with the horizontal component forced to zero — the only
set-linear-velocity call of the step. -/
theorem C5_smoothing (stepFn : World → World) (s : MainState) (hd : ℕ)
    (hrb : s.player.rb = some hd) :
    PADDLE_SPEED = 1000 ∧ LERP_TWEAK = 10 ∧
    (fixedStep stepFn s).1.player.dy
      = lerp s.player.dy (s.axis * PADDLE_SPEED) (LERP_TWEAK * (1 / 60)) ∧
    (fixedStep stepFn s).2
      = [WorldCall.step 0.016,
         WorldCall.set_lin_vel hd
           ⟨0, lerp s.player.dy (s.axis * PADDLE_SPEED) (LERP_TWEAK * (1 / 60))⟩] ∧
    (fixedStep stepFn s).1.world
      = setBodyLinVel (stepFn s.world) hd
          ⟨0, lerp s.player.dy (s.axis * PADDLE_SPEED) (LERP_TWEAK * (1 / 60))⟩ := by
  refine ⟨rfl, rfl, ?_, ?_, ?_⟩ <;> simp [fixedStep, hrb, DESIRED_FPS]

/-- C5 witness: the hypotheses of `C5_smoothing` are satisfiable. -/
theorem C5_smoothing_witness :
    sPlayer0.player.rb = some 0 ∧
    (fixedStep id sPlayer0).1.player.dy
      = lerp sPlayer0.player.dy (sPlayer0.axis * PADDLE_SPEED) (LERP_TWEAK * (1 / 60)) :=
  ⟨rfl, (C5_smoothing id sPlayer0 0 rfl).2.2.1⟩

/-! ### C6: convergence of the smoothed velocity -/

theorem update_axis (stepFn : World → World) (n : ℕ) (s : MainState) :
    (update stepFn n s).1.axis = s.axis := by
  induction n generalizing s with
  | zero => rfl
  | succ n ih =>
    show (update stepFn n (fixedStep stepFn s).1).1.axis = s.axis
    rw [ih, fixedStep_axis]

theorem update_dy_axis_one (stepFn : World → World) (n : ℕ) (s : MainState)
    (hax : s.axis = 1) :
    (update stepFn n s).1.player.dy = dyIter n s.player.dy := by
  induction n generalizing s with
  | zero => rfl
  | succ n ih =>
    have h1 : (fixedStep stepFn s).1.axis = 1 := by rw [fixedStep_axis, hax]
    have h2 : (fixedStep stepFn s).1.player.dy
        = lerp s.player.dy PADDLE_SPEED (LERP_TWEAK / (DESIRED_FPS : ℚ)) := by
      rw [fixedStep_player_dy, hax, one_mul, mul_one_div]
    show (update stepFn n (fixedStep stepFn s).1).1.player.dy
      = dyIter n (lerp s.player.dy PADDLE_SPEED (LERP_TWEAK / (DESIRED_FPS : ℚ)))
    rw [ih _ h1, h2]

theorem dyIter_closed (n : ℕ) (v : ℚ) :
    dyIter n v = 1000 - (5 / 6 : ℚ) ^ n * (1000 - v) := by
  induction n generalizing v with
  | zero => simp [dyIter]
  | succ n ih =>
    show dyIter n (lerp v PADDLE_SPEED (LERP_TWEAK / (DESIRED_FPS : ℚ)))
      = 1000 - (5 / 6 : ℚ) ^ (n + 1) * (1000 - v)
    rw [ih]
    have hd : ((DESIRED_FPS : ℕ) : ℚ) = 60 := by norm_num [DESIRED_FPS]
    simp only [lerp, PADDLE_SPEED, LERP_TWEAK, hd]
    ring

/-- C6: starting from smoothed velocity `0` with the axis held at `+1`,
the per-step smoothed velocities are monotonically non-decreasing,
never exceed `PADDLE_SPEED = 1000`, and after 300 fixed steps exceed
`990`. -/
theorem C6_convergence (stepFn : World → World) (s : MainState)
    (h0 : s.player.dy = 0) (hax : s.axis = 1) :
    (∀ n, (update stepFn n s).1.player.dy ≤ (update stepFn (n + 1) s).1.player.dy) ∧
    (∀ n, (update stepFn n s).1.player.dy ≤ PADDLE_SPEED) ∧
    990 < (update stepFn 300 s).1.player.dy := by
  have hd : ∀ n, (update stepFn n s).1.player.dy = 1000 - (5 / 6 : ℚ) ^ n * 1000 := by
    intro n
    rw [update_dy_axis_one stepFn n s hax, dyIter_closed, h0]
    ring
  refine ⟨?_, ?_, ?_⟩
  · intro n
    rw [hd n, hd (n + 1)]
    have hle : (5 / 6 : ℚ) ^ (n + 1) ≤ (5 / 6 : ℚ) ^ n :=
      pow_le_pow_of_le_one (by norm_num) (by norm_num) (Nat.le_succ n)
    linarith
  · intro n
    rw [hd n, PADDLE_SPEED]
    have hnn : (0 : ℚ) ≤ (5 / 6 : ℚ) ^ n := pow_nonneg (by norm_num) n
    linarith
  · rw [hd 300]
    have hsmall : (5 / 6 : ℚ) ^ 300 < 1 / 100 := by norm_num
    linarith

/-- C6 witness: the hypotheses of `C6_convergence` are satisfiable. -/
theorem C6_convergence_witness :
    sAxis1.player.dy = 0 ∧ sAxis1.axis = 1 ∧
    990 < (update id 300 sAxis1).1.player.dy :=
  ⟨rfl, rfl, (C6_convergence id sAxis1 rfl rfl).2.2⟩

/-! ### C9: the ai paddle receives no velocity writes -/

theorem setBodyLinVel_getElem_ne (w : World) (handle : ℕ) (v : Vec2) {j : ℕ}
    (hne : handle ≠ j) : (setBodyLinVel w handle v)[j]? = w[j]? := by
  unfold setBodyLinVel
  cases w[handle]? with
  | none => rfl
  | some rb => exact List.getElem?_set_ne hne

theorem fixedStep_world_ne (stepFn : World → World) (s : MainState) {j : ℕ}
    (hne : s.player.rb ≠ some j) :
    (fixedStep stepFn s).1.world[j]? = (stepFn s.world)[j]? := by
  cases hrb : s.player.rb with
  | none => simp [fixedStep, hrb]
  | some hp =>
    have hpj : hp ≠ j := fun h => hne (by rw [hrb, h])
    simp only [fixedStep]
    simpa [hrb] using setBodyLinVel_getElem_ne (stepFn s.world) hp _ hpj

theorem fixedStep_trace_set {stepFn : World → World} {s : MainState} {hd : ℕ} {v : Vec2}
    (h : WorldCall.set_lin_vel hd v ∈ (fixedStep stepFn s).2) : s.player.rb = some hd := by
  cases hrb : s.player.rb with
  | none => simp [fixedStep, hrb] at h
  | some hp =>
    simp only [fixedStep, hrb, List.mem_cons, List.not_mem_nil, or_false, reduceCtorEq,
      WorldCall.set_lin_vel.injEq, false_or] at h
    rw [h.1]

/-- C9: across any number of fixed steps and whatever the axis, the
update logic issues set-velocity calls only for the player handle:
no `set_lin_vel` call ever targets the ai paddle's handle, and —
within this core's scope, i.e. for an engine step that does not itself
alter that body's velocity — the ai paddle's body velocity is
unchanged. -/
theorem C9_ai_velocity_isolated (stepFn : World → World) (s : MainState) (n : ℕ)
    (hAi : ℕ) (hai : s.ai.rb = some hAi) (hne : s.player.rb ≠ some hAi)
    (hstep : ∀ w : World, ((stepFn w)[hAi]?).map RigidBody.lin_vel
        = (w[hAi]?).map RigidBody.lin_vel) :
    (((update stepFn n s).1.world[hAi]?).map RigidBody.lin_vel
        = (s.world[hAi]?).map RigidBody.lin_vel) ∧
    (∀ v : Vec2, WorldCall.set_lin_vel hAi v ∉ (update stepFn n s).2) := by
  induction n generalizing s with
  | zero => exact ⟨rfl, by simp [update]⟩
  | succ n ih =>
    have hai' : (fixedStep stepFn s).1.ai.rb = some hAi := by rw [fixedStep_ai]; exact hai
    have hne' : (fixedStep stepFn s).1.player.rb ≠ some hAi := by
      rw [fixedStep_player_rb]; exact hne
    have hw : ((fixedStep stepFn s).1.world[hAi]?).map RigidBody.lin_vel
        = (s.world[hAi]?).map RigidBody.lin_vel := by
      rw [fixedStep_world_ne stepFn s hne]; exact hstep s.world
    obtain ⟨ihw, ihtr⟩ := ih (fixedStep stepFn s).1 hai' hne'
    constructor
    · show (((update stepFn n (fixedStep stepFn s).1).1.world[hAi]?).map RigidBody.lin_vel
        = (s.world[hAi]?).map RigidBody.lin_vel)
      rw [ihw, hw]
    · intro v hmem
      have : WorldCall.set_lin_vel hAi v ∈ (fixedStep stepFn s).2
          ∨ WorldCall.set_lin_vel hAi v ∈ (update stepFn n (fixedStep stepFn s).1).2 := by
        simpa only [update, List.mem_append] using hmem
      rcases this with h | h
      · exact hne (fixedStep_trace_set h)
      · exact ihtr v h

/-- C9 witness: the hypotheses of `C9_ai_velocity_isolated` are
satisfiable at a concrete two-paddle state. -/
theorem C9_ai_velocity_isolated_witness :
    sTwoPaddles.ai.rb = some 1 ∧ sTwoPaddles.player.rb ≠ some 1 ∧
    ((update id 2 sTwoPaddles).1.world[1]?).map RigidBody.lin_vel
      = (sTwoPaddles.world[1]?).map RigidBody.lin_vel :=
  ⟨rfl, by simp [sTwoPaddles],
   (C9_ai_velocity_isolated id sTwoPaddles 2 1 rfl (by simp [sTwoPaddles])
     (fun _ => rfl)).1⟩

/-! ### Construction-loop lemmas -/

theorem processObject_ok (hypot : ℚ → ℚ → ℚ) (st : BuildState) (o : TiledObject)
    (hok : objOk o = true) :
    (processObject hypot st o).isSome = true ∧
    (processObject hypot st o).map (fun st' => st'.ball.isSome)
      = some (st.ball.isSome || o.obj_type == "ball") ∧
    ((o.obj_type = "paddle" → o.name ≠ "player_paddle") →
      (processObject hypot st o).map BuildState.player = some st.player) := by
  by_cases hw : o.obj_type = "wall"
  · simp only [objOk, hw, if_pos rfl] at hok
    cases hs : o.shape with
    | Rect w h =>
      refine ⟨?_, ?_, fun _ => ?_⟩ <;> simp [processObject, hw, make_cuboid_rb, hs]
    | Ellipse w h => rw [hs] at hok; simp [isRect] at hok
    | Other => rw [hs] at hok; simp [isRect] at hok
  · by_cases hp : o.obj_type = "paddle"
    · rw [objOk, if_neg (by rw [hp]; decide), if_pos hp] at hok
      rw [Bool.and_eq_true, Bool.or_eq_true, beq_iff_eq, beq_iff_eq] at hok
      obtain ⟨hrect, hname⟩ := hok
      cases hs : o.shape with
      | Rect w h =>
        rcases hname with hn | hn
        · refine ⟨?_, ?_, fun hpre => absurd hn (hpre hp)⟩ <;>
            simp [processObject, hw, hp, hn, make_cuboid_rb, hs]
        · have hn' : o.name ≠ "player_paddle" := by rw [hn]; decide
          refine ⟨?_, ?_, fun _ => ?_⟩ <;>
            simp [processObject, hw, hp, hn, hn', make_cuboid_rb, hs]
      | Ellipse w h => rw [hs] at hrect; simp [isRect] at hrect
      | Other => rw [hs] at hrect; simp [isRect] at hrect
    · by_cases hb : o.obj_type = "ball"
      · rw [objOk, if_neg (by rw [hb]; decide), if_neg (by rw [hb]; decide),
          if_pos hb] at hok
        cases hs : o.shape with
        | Ellipse w h =>
          refine ⟨?_, ?_, fun _ => ?_⟩ <;> simp [processObject, hw, hp, hb, hs]
        | Rect w h => rw [hs] at hok; simp [isEllipse] at hok
        | Other => rw [hs] at hok; simp [isEllipse] at hok
      · refine ⟨?_, ?_, fun _ => ?_⟩ <;> simp [processObject, hw, hp, hb]

theorem foldObjs_ok (hypot : ℚ → ℚ → ℚ) :
    ∀ (objects : List TiledObject) (st : BuildState),
      (∀ o ∈ objects, objOk o = true) →
      ∃ st', objects.foldlM (processObject hypot) st = some st' ∧
        st'.ball.isSome
          = (st.ball.isSome || objects.any (fun o => o.obj_type == "ball")) ∧
        ((∀ o ∈ objects, o.obj_type = "paddle" → o.name ≠ "player_paddle") →
          st'.player = st.player)
  | [], st, _ => ⟨st, rfl, by simp, fun _ => rfl⟩
  | o :: objects, st, hok => by
    obtain ⟨ha, hb, hc⟩ := processObject_ok hypot st o (hok o (List.mem_cons_self o objects))
    obtain ⟨st1, h1⟩ := Option.isSome_iff_exists.mp ha
    have hball1 : st1.ball.isSome = (st.ball.isSome || o.obj_type == "ball") := by
      rw [h1] at hb
      exact Option.some_injective _ hb
    have hplayer1 : (o.obj_type = "paddle" → o.name ≠ "player_paddle") →
        st1.player = st.player := by
      intro hpre
      have := hc hpre
      rw [h1] at this
      exact Option.some_injective _ this
    obtain ⟨st', h2, hball2, hplayer2⟩ :=
      foldObjs_ok hypot objects st1 (fun o' ho' => hok o' (List.mem_cons_of_mem o ho'))
    refine ⟨st', ?_, ?_, ?_⟩
    · rw [List.foldlM_cons, h1]
      exact h2
    · rw [hball2, hball1, List.any_cons, Bool.or_assoc]
    · intro hno
      rw [hplayer2 (fun o' ho' => hno o' (List.mem_cons_of_mem o ho')),
        hplayer1 (hno o (List.mem_cons_self o objects))]

theorem foldGroups_eq_foldObjs (hypot : ℚ → ℚ → ℚ) (groups : List ObjectGroup)
    (st : BuildState) :
    groups.foldlM (fun st group => group.objects.foldlM (processObject hypot) st) st
      = ((groups.map ObjectGroup.objects).flatten).foldlM (processObject hypot) st := by
  induction groups generalizing st with
  | nil => rfl
  | cons g groups ih =>
    rw [List.map_cons, List.flatten_cons, List.foldlM_append, List.foldlM_cons]
    cases g.objects.foldlM (processObject hypot) st with
    | none => rfl
    | some st1 => exact ih st1

/-! ### C2: when construction aborts over the ball count -/

/-- C2 (counterexample): a level with two ball objects does not make
construction fail — `MainState::new` succeeds and keeps the handle of
the last ball object seen (handle `2`, after the wall and the first
ball). -/
theorem C2_two_balls_counterexample :
    twoBallMap.allObjects.countP (fun o => o.obj_type == "ball") = 2 ∧
    (MainState.new hyp0 twoBallMap).isSome = true ∧
    (MainState.new hyp0 twoBallMap).map MainState.ball = some 2 :=
  ⟨rfl, rfl, rfl⟩

/-- C2 (amended): for a level whose objects are all role-consistent,
construction is fatal exactly when no ball object is present; more than
one ball object does not abort (each later ball simply replaces the
recorded handle). -/
theorem C2_ball_presence (hypot : ℚ → ℚ → ℚ) (map : TiledMap)
    (hok : ∀ o ∈ map.allObjects, objOk o = true) :
    (MainState.new hypot map).isSome
      = map.allObjects.any (fun o => o.obj_type == "ball") := by
  obtain ⟨st', h, hball, -⟩ :=
    foldObjs_ok hypot map.allObjects ⟨[], Paddle.default, Paddle.default, none⟩ hok
  simp only [Option.isSome_none, Bool.false_or] at hball
  simp only [MainState.new]
  rw [foldGroups_eq_foldObjs]
  rw [show List.foldlM (processObject hypot)
      (⟨[], Paddle.default, Paddle.default, none⟩ : BuildState)
      ((map.object_groups.map ObjectGroup.objects).flatten) = some st' from h]
  cases hsb : st'.ball with
  | some b =>
    rw [hsb] at hball
    simp only [Option.isSome_some] at hball
    simp [hsb, ← hball]
  | none =>
    rw [hsb] at hball
    simp only [Option.isSome_none] at hball
    simp [hsb, ← hball]

/-- C2 witness: the hypotheses of `C2_ball_presence` are satisfiable. -/
theorem C2_ball_presence_witness :
    (∀ o ∈ oneBallMap.allObjects, objOk o = true) ∧
    (MainState.new hyp0 oneBallMap).isSome
      = oneBallMap.allObjects.any (fun o => o.obj_type == "ball") :=
  ⟨by decide, C2_ball_presence hyp0 oneBallMap (by decide)⟩

/-! ### C3: role/shape mismatches abort, matches do not -/

/-- C3: body construction aborts exactly when an object's shape does
not match its role: `make_cuboid_rb` (used for walls and paddles)
produces a descriptor iff the shape is a rectangle, and the ball branch
of the construction loop produces a state iff the ball object's shape
is an ellipse; for matching shapes the shape dispatch never aborts. -/
theorem C3_shape_dispatch (hypot : ℚ → ℚ → ℚ) :
    (∀ (object : TiledObject) (dyn : Bool),
      (make_cuboid_rb object dyn).isSome = isRect object.shape) ∧
    (∀ (st : BuildState) (object : TiledObject), object.obj_type = "ball" →
      (processObject hypot st object).isSome = isEllipse object.shape) := by
  constructor
  · intro o dyn
    cases hs : o.shape <;> cases dyn <;> simp [make_cuboid_rb, hs, isRect]
  · intro st o hb
    cases hs : o.shape <;> simp [processObject, hb, hs, isEllipse]

/-- C3 witness: the hypotheses of `C3_shape_dispatch` are satisfiable;
a rectangle-shaped ball object aborts the ball branch. -/
theorem C3_shape_dispatch_witness :
    badBall.obj_type = "ball" ∧ isEllipse badBall.shape = false ∧
    (processObject hyp0 init0 badBall).isSome = isEllipse badBall.shape :=
  ⟨rfl, rfl, (C3_shape_dispatch hyp0).2 init0 badBall rfl⟩

/-! ### C10: a level with no player paddle -/

theorem update_player_rb (stepFn : World → World) (n : ℕ) (s : MainState) :
    (update stepFn n s).1.player.rb = s.player.rb := by
  induction n generalizing s with
  | zero => rfl
  | succ n ih =>
    show (update stepFn n (fixedStep stepFn s).1).1.player.rb = s.player.rb
    rw [ih, fixedStep_player_rb]

theorem update_succ_state (stepFn : World → World) (n : ℕ) (s : MainState) :
    (update stepFn (n + 1) s).1 = (fixedStep stepFn (update stepFn n s).1).1 := by
  induction n generalizing s with
  | zero => rfl
  | succ n ih =>
    show (update stepFn (n + 1) (fixedStep stepFn s).1).1 = _
    rw [ih]
    rfl

theorem fixedStep_rb_none (stepFn : World → World) (s : MainState)
    (h : s.player.rb = none) :
    (fixedStep stepFn s).1.world = stepFn s.world ∧
    (fixedStep stepFn s).2 = [WorldCall.step 0.016] := by
  constructor <;> simp [fixedStep, h]

theorem update_rb_none (stepFn : World → World) (n : ℕ) (s : MainState)
    (h : s.player.rb = none) :
    (update stepFn n s).1.world = stepFn^[n] s.world ∧
    ∀ c ∈ (update stepFn n s).2, c = WorldCall.step 0.016 := by
  induction n generalizing s with
  | zero => exact ⟨rfl, by simp [update]⟩
  | succ n ih =>
    have h' : (fixedStep stepFn s).1.player.rb = none := by
      rw [fixedStep_player_rb]; exact h
    obtain ⟨hw, ht⟩ := fixedStep_rb_none stepFn s h
    obtain ⟨ihw, iht⟩ := ih (fixedStep stepFn s).1 h'
    constructor
    · show (update stepFn n (fixedStep stepFn s).1).1.world = stepFn^[n + 1] s.world
      rw [ihw, hw, Function.iterate_succ_apply]
    · intro c hc
      have hmem : c ∈ (fixedStep stepFn s).2
          ∨ c ∈ (update stepFn n (fixedStep stepFn s).1).2 := by
        simpa only [update, List.mem_append] using hc
      rcases hmem with hc | hc
      · rw [ht] at hc; simpa using hc
      · exact iht c hc

/-- C10: a role-consistent level that contains a ball but no object of
type "paddle" named "player_paddle" constructs successfully with the
player paddle handle left `none`; every subsequent fixed step still
computes the smoothed velocity by the lerp formula but issues no
set-velocity call (the trace holds only `step 0.016` calls and the
world is touched only by the engine), raising no error. -/
theorem C10_missing_player_paddle (hypot : ℚ → ℚ → ℚ) (map : TiledMap)
    (hok : ∀ o ∈ map.allObjects, objOk o = true)
    (hball : map.allObjects.any (fun o => o.obj_type == "ball") = true)
    (hnp : ∀ o ∈ map.allObjects, o.obj_type = "paddle" → o.name ≠ "player_paddle") :
    ∃ s, MainState.new hypot map = some s ∧ s.player.rb = none ∧
      ∀ (stepFn : World → World) (n : ℕ),
        (update stepFn n s).1.player.rb = none ∧
        (update stepFn n s).1.world = stepFn^[n] s.world ∧
        (∀ c ∈ (update stepFn n s).2, c = WorldCall.step 0.016) ∧
        (update stepFn (n + 1) s).1.player.dy
          = lerp ((update stepFn n s).1.player.dy) (s.axis * PADDLE_SPEED)
              (LERP_TWEAK * (1 / 60)) := by
  obtain ⟨st', h, hballs, hplayer⟩ :=
    foldObjs_ok hypot map.allObjects ⟨[], Paddle.default, Paddle.default, none⟩ hok
  have hpl : st'.player = Paddle.default := hplayer hnp
  simp only [Option.isSome_none, Bool.false_or, hball] at hballs
  obtain ⟨b, hsb⟩ := Option.isSome_iff_exists.mp hballs
  have hrbnone : (⟨st'.world, 0, st'.player, b, st'.ai⟩ : MainState).player.rb = none := by
    show st'.player.rb = none
    rw [hpl]
    rfl
  refine ⟨⟨st'.world, 0, st'.player, b, st'.ai⟩, ?_, hrbnone, ?_⟩
  · simp only [MainState.new]
    rw [foldGroups_eq_foldObjs]
    rw [show List.foldlM (processObject hypot)
        (⟨[], Paddle.default, Paddle.default, none⟩ : BuildState)
        ((map.object_groups.map ObjectGroup.objects).flatten) = some st' from h]
    simp [hsb]
  · intro stepFn n
    obtain ⟨hw, ht⟩ := update_rb_none stepFn n _ hrbnone
    refine ⟨?_, hw, ht, ?_⟩
    · rw [update_player_rb]
      exact hrbnone
    · rw [update_succ_state, fixedStep_player_dy, update_axis]
      norm_num [DESIRED_FPS]

/-- C10 witness: the hypotheses of `C10_missing_player_paddle` are
satisfiable at a concrete level with a wall, an ai paddle and a ball
but no player paddle. -/
theorem C10_missing_player_paddle_witness :
    (∀ o ∈ noPlayerMap.allObjects, objOk o = true) ∧
    noPlayerMap.allObjects.any (fun o => o.obj_type == "ball") = true ∧
    (∃ s, MainState.new hyp0 noPlayerMap = some s ∧ s.player.rb = none ∧
      ∀ (stepFn : World → World) (n : ℕ),
        (update stepFn n s).1.player.rb = none ∧
        (update stepFn n s).1.world = stepFn^[n] s.world ∧
        (∀ c ∈ (update stepFn n s).2, c = WorldCall.step 0.016) ∧
        (update stepFn (n + 1) s).1.player.dy
          = lerp ((update stepFn n s).1.player.dy) (s.axis * PADDLE_SPEED)
              (LERP_TWEAK * (1 / 60))) :=
  ⟨by decide, by decide,
   C10_missing_player_paddle hyp0 noPlayerMap (by decide) (by decide) (by decide)⟩

end Pong
